import Mathlib

/-!
Verification development for the LocationMarker waypoint plugin.

The definitions below are a shallow embedding of the plugin's source:

* `src/location_marker/storage.py` — the `Point` / `Location` data model and
  the `LocationStorage` class (in-memory list + name dictionary + JSON file).
* `src/location_marker/entry.py` — the command layer (`add_location`,
  `list_locations`, `show_location_detail`) and the presentation helpers
  (`get_dim_key`, `get_dimension_text`, `get_coordinate_text`).

Modelling conventions:

* Python floats are modelled as exact rationals (`ℚ`); Python ints as `ℤ`.
* The Python dict `__name_map` is modelled as an insertion-ordered
  association list, which is how CPython dicts behave observably.
* The backing JSON file is modelled at the value level: `none` means the
  file is absent, `DiskFile.good locs` means the file holds the (unique,
  deterministic) `json.dump` serialization of the location list `locs`, and
  `DiskFile.bad e data` means reading/parsing the file raises an exception
  rendered as `e` (with `data` the `str()` of the partially parsed content).
  Since `json.dump` of a location list is deterministic and injective,
  value-level equality of `DiskFile.good` contents coincides with
  byte-for-byte equality of the written file.
* Fallible Python statements (a raising `Location(...)` constructor, a
  raising `save`, `list.remove` on a missing element, string indexing and
  `.replace` on a non-string) are modelled with `Option`/`Except` outcomes.
-/

namespace LocationMarker

/-- storage.py `Point`: three float coordinates, modelled as rationals. -/
structure Point where
  x : ℚ
  y : ℚ
  z : ℚ
  deriving DecidableEq

/-- storage.py `Location`: a named waypoint; `desc` is `Optional[str]`,
`dim` is an `int`, `pos` a `Point`. -/
structure Location where
  name : String
  desc : Option String
  dim : ℤ
  pos : Point
  deriving DecidableEq

/-- Python `dict.get`: first (unique) entry with the given key, if any. -/
def dictGet (d : List (String × Location)) (k : String) : Option Location :=
  (d.find? (fun e => e.1 == k)).map (fun e => e.2)

/-- Python `d[k] = v` on a dict: replace in place if the key is present,
otherwise append at the end (CPython preserves insertion order). -/
def dictInsert (d : List (String × Location)) (k : String) (v : Location) :
    List (String × Location) :=
  if (d.find? (fun e => e.1 == k)).isSome then
    d.map (fun e => if e.1 == k then (k, v) else e)
  else
    d ++ [(k, v)]

/-- Python `dict.pop(k)`: drop the entry with the given key. -/
def dictPop (d : List (String × Location)) (k : String) : List (String × Location) :=
  d.filter (fun e => e.1 != k)

/-- Python `list.remove(a)`: remove the first element equal to `a`;
`none` models the `ValueError` raised when no element is equal. -/
def removeFirst? : List Location → Location → Option (List Location)
  | [], _ => none
  | x :: rest, a => if x = a then some rest else (removeFirst? rest a).map (fun l => x :: l)

/-- storage.py `LocationStorage`: the in-memory part (ordered list of
locations plus the `__name_map` dictionary). -/
structure LocationStorage where
  locations : List Location
  name_map : List (String × Location)
  deriving DecidableEq

/-- Method `LocationStorage.get`. -/
def LocationStorage.get (st : LocationStorage) (name : String) : Option Location :=
  dictGet st.name_map name

/-- Method `LocationStorage.get_locations` (returns a snapshot copy of the list). -/
def LocationStorage.get_locations (st : LocationStorage) : List Location :=
  st.locations

/-- Method `LocationStorage.contains`: `name in self.__name_map`. -/
def LocationStorage.contains (st : LocationStorage) (name : String) : Bool :=
  (dictGet st.name_map name).isSome

/-- Method `LocationStorage.__add`: reject when the name is present, otherwise
append to the list and insert into the name dictionary. -/
def LocationStorage.addInternal (st : LocationStorage) (location : Location) :
    LocationStorage × Bool :=
  match st.get location.name with
  | some _ => (st, false)
  | none =>
      (⟨st.locations ++ [location], dictInsert st.name_map location.name location⟩, true)

/-- Method `LocationStorage.__remove`: look the name up in the dictionary; when
found, remove the object from the list (`.error` models the `ValueError`
that `list.remove` raises if the object is not in the list) and pop it
from the dictionary. -/
def LocationStorage.removeInternal (st : LocationStorage) (target_name : String) :
    Except String (LocationStorage × Option Location) :=
  match st.get target_name with
  | some loc =>
      match removeFirst? st.locations loc with
      | some locs => .ok (⟨locs, dictPop st.name_map loc.name⟩, some loc)
      | none => .error "ValueError: list.remove(x): x not in list"
  | none => .ok (st, none)

/-- The backing JSON file, at the value level (see the module docstring). -/
inductive DiskFile
  | good (locs : List Location)
  | bad (err : String) (dataRepr : String)
  deriving DecidableEq

/-- Whole program state relevant to the storage layer: the in-memory store
plus the backing file (`none` = file absent). -/
structure State where
  store : LocationStorage
  disk : Option DiskFile
  deriving DecidableEq

/-- Method `LocationStorage.save`: overwrite the backing file with the
serialization of the current location list. -/
def State.save (s : State) : State :=
  { s with disk := some (DiskFile.good s.store.locations) }

/-- Method `LocationStorage.add`: `__add` then `save`; returns the `__add` result. -/
def State.add (s : State) (location : Location) : State × Bool :=
  let r := s.store.addInternal location
  (State.save { s with store := r.1 }, r.2)

/-- Method `LocationStorage.remove`: `__remove` then `save`. The `.error` case
propagates the `ValueError` from `list.remove`; in that case neither the
store nor the file has been touched (the exception fires before any
mutation and `save` is never reached). -/
def State.remove (s : State) (target_name : String) :
    Except String (State × Option Location) :=
  match s.store.removeInternal target_name with
  | .ok (st, r) => .ok (State.save { s with store := st }, r)
  | .error e => .error e

/-- Method `LocationStorage.load`: clear the location list (note: the source does
NOT clear `__name_map`), then read the backing file. A missing file or a
read/parse failure sets `needs_overwrite` (the failure case also logs two
error lines); a parsed file is replayed through `__add` record by record.
When `needs_overwrite` is set, `save` rewrites the file. Returns the new
state and the logged error lines. -/
def State.load (s : State) (file_path : String) : State × List String :=
  let st0 : LocationStorage := ⟨[], s.store.name_map⟩
  match s.disk with
  | none => (State.save ⟨st0, s.disk⟩, [])
  | some (.bad e dataRepr) =>
      (State.save ⟨st0, s.disk⟩,
        ["Fail to load " ++ file_path ++ ": " ++ e, "Unknown data: " ++ dataRepr])
  | some (.good locs) =>
      (⟨locs.foldl (fun st l => (st.addInternal l).1) st0, s.disk⟩, [])

/-- entry.py `Config`: the two plugin options. -/
structure Config where
  teleport_hint_on_coordinate : Bool
  item_per_page : ℤ
  deriving DecidableEq

/-- Modelled from the spec: the command anchor `constants.PREFIX`
(`location_marker/constants.py` is not in the sources); spec §4.4 fixes the
grammar anchor to `!!loc`, matching the superseded single-file revision. -/
def PREFIX : String := "!!loc"

/-- Plugin display name, from `PLUGIN_METADATA` in the superseded
single-file revision (`src/LocationMarker.py`); entry.py reads the same
value through `server_inst.get_self_metadata().name`. -/
def PLUGIN_NAME : String := "Location Marker"

/-- A Python `Union[int, str]` dimension value. -/
inductive DimValue
  | int (i : ℤ)
  | str (s : String)
  deriving DecidableEq

/-- Python `str(dim)` on a dimension value. -/
def dimValueStr : DimValue → String
  | .int i => toString i
  | .str s => s

/-- entry.py `get_dim_key`: `dimension_convert.get(dim, dim)` — the three
canonical integers map to fixed world keys; everything else (other
integers, and any string, since a string never equals an int dict key)
passes through unchanged. -/
def get_dim_key : DimValue → DimValue
  | .int 0 => .str "minecraft:overworld"
  | .int (-1) => .str "minecraft:the_nether"
  | .int 1 => .str "minecraft:the_end"
  | d => d

/-- The chat colors used by the plugin. -/
inductive RColor
  | dark_green
  | dark_red
  | dark_purple
  | gray
  | dark_gray
  | green
  | aqua
  deriving DecidableEq

/-- Rendered dimension text: either a localized translation node
(`RTextTranslation`) or a plain text node (`RText`), each with a color and
a hover string. -/
inductive DimText
  | translation (translationKey : String) (color : RColor) (hover : String)
  | plain (label : String) (color : RColor) (hover : String)
  deriving DecidableEq

/-- entry.py `get_dimension_text`: the `dimension_color` dict. -/
def dimension_color : List (String × RColor) :=
  [("minecraft:overworld", .dark_green),
   ("minecraft:the_nether", .dark_red),
   ("minecraft:the_end", .dark_purple)]

/-- entry.py `get_dimension_text`: the `dimension_translation` dict. -/
def dimension_translation : List (String × String) :=
  [("minecraft:overworld", "createWorld.customize.preset.overworld"),
   ("minecraft:the_nether", "advancements.nether.root.title"),
   ("minecraft:the_end", "advancements.end.root.title")]

/-- Membership/lookup of a `Union[int, str]` value in a str-keyed dict:
an int is never equal to a str key, so it never hits. -/
def keyLookup {α : Type} (d : DimValue) (table : List (String × α)) : Option α :=
  match d with
  | .str s => (table.find? (fun e => e.1 == s)).map (fun e => e.2)
  | .int _ => none

/-- entry.py `get_dimension_text`: resolve the key, then either the
localized colored node (hover = the key) or a plain gray node whose label
and hover are both `str(dim_key)`. -/
def get_dimension_text (dim : DimValue) : DimText :=
  let dim_key := get_dim_key dim
  match keyLookup dim_key dimension_color with
  | some c =>
      .translation ((keyLookup dim_key dimension_translation).getD "") c (dimValueStr dim_key)
  | none => .plain (dimValueStr dim_key) RColor.gray (dimValueStr dim_key)

/-- Python `round(q)` (no `ndigits`): round half to even, returning an int. -/
def pyRoundInt (q : ℚ) : ℤ :=
  let f := ⌊q⌋
  if q - f < 1 / 2 then f
  else if 1 / 2 < q - f then f + 1
  else if f % 2 = 0 then f else f + 1

/-- Python `round(q, ndigits)`: round half to even at `ndigits` decimal
digits (floats modelled as exact rationals). -/
def pyRound (q : ℚ) (ndigits : ℕ) : ℚ :=
  (pyRoundInt (q * 10 ^ ndigits) : ℚ) / 10 ^ ndigits

/-- The suggested teleport command
`/execute in <dim-key> run tp <x> <y> <z>`, at the value level: the
dimension key and the three (unrounded) coordinates interpolated into it. -/
structure TpCommand where
  dimKey : DimValue
  x : ℚ
  y : ℚ
  z : ℚ
  deriving DecidableEq

/-- One piece of the rendered coordinate text: `punct` for the brackets and
commas, `elem` for a coordinate, whose `shown` field is the value displayed
by `str(round(value, precision))` and whose `hover` field is the unrounded
value attached by `. h(value)`. `click` is the teleport suggestion. -/
inductive CoordPiece
  | punct (s : String) (click : Option TpCommand)
  | elem (shown : ℚ) (hover : ℚ) (click : Option TpCommand)
  deriving DecidableEq

/-- entry.py `get_coordinate_text` (color and the static "点击以传送" hover
hint carry no claim content and are omitted): brackets and commas plus the
three rounded coordinates; every piece gets the teleport click command
(with the unrounded coordinates) when the config flag is on. -/
def get_coordinate_text (cfg : Config) (coord : Point) (dimension : ℤ)
    (precision : ℕ) : List CoordPiece :=
  let tp : Option TpCommand :=
    if cfg.teleport_hint_on_coordinate then
      some ⟨get_dim_key (.int dimension), coord.x, coord.y, coord.z⟩
    else none
  [CoordPiece.punct "[" tp,
   CoordPiece.elem (pyRound coord.x precision) coord.x tp,
   CoordPiece.punct ", " tp,
   CoordPiece.elem (pyRound coord.y precision) coord.y tp,
   CoordPiece.punct ", " tp,
   CoordPiece.elem (pyRound coord.z precision) coord.z tp,
   CoordPiece.punct "]" tp]

/-- Substring search over character lists: true when `sub` occurs
contiguously. Models Python `s.find(sub) != -1`. -/
def subSearch (sub : List Char) : List Char → Bool
  | [] => sub.isEmpty
  | c :: t => sub.isPrefixOf (c :: t) || subSearch sub t

/-- Python `s.find(kw) != -1`: case-sensitive substring hit. -/
def strFindHit (s kw : String) : Bool := subSearch kw.toList s.toList

/-- entry.py `list_locations` match test: no keyword matches everything;
otherwise the keyword must occur in the name, or in the description when
one is present. -/
def matchesKeyword (keyword : Option String) (loc : Location) : Bool :=
  match keyword with
  | none => true
  | some kw =>
      strFindHit loc.name kw ||
        (match loc.desc with
         | some d => strFindHit d kw
         | none => false)

/-- Simplified `json.dumps` of the keyword used in the re-run command
(escaping of special characters elided; no claim depends on it). -/
def jsonQuote (kw : String) : String := "\"" ++ kw ++ "\""

/-- Python `range(a, b)` over ints, as a list. -/
def intRange (a b : ℤ) : List ℤ :=
  (List.range (b - a).toNat).map (fun k : ℕ => a + (k : ℤ))

/-- The "<- 第p页 ->" control line: the enabled state of both arrows and
the command each arrow re-runs when enabled. -/
structure PageControls where
  has_prev : Bool
  has_next : Bool
  page : ℤ
  prev_command : Option String
  next_command : Option String
  deriving DecidableEq

/-- Everything `list_locations` sends back to the source: the rendered
waypoint items in order, the control line (present only in paged mode) and
the trailing count summary (always sent). -/
structure ListOutput where
  items : List Location
  controls : Option PageControls
  summary : String
  deriving DecidableEq

/-- entry.py `list_locations`: filter by keyword; without a page, reply
every match; with page `p`, reply the matches with index in
`range((p-1)*n, p*n)` that satisfy `0 <= i < matched_count`, then the
control line with `has_prev = 0 < left < matched_count` and
`has_next = 0 < right < matched_count`; always end with the summary. -/
def list_locations (cfg : Config) (st : LocationStorage) (keyword : Option String)
    (page : Option ℤ) : ListOutput :=
  let matched := st.get_locations.filter (matchesKeyword keyword)
  let matched_count : ℤ := matched.length
  let summary :=
    match keyword with
    | none => "共有§6" ++ toString matched.length ++ "§r个路标"
    | some _ => "共找到§6" ++ toString matched.length ++ "§r个路标"
  match page with
  | none => ⟨matched, none, summary⟩
  | some p =>
      let command_base :=
        match keyword with
        | none => PREFIX ++ " list"
        | some kw => PREFIX ++ " search " ++ jsonQuote kw
      let left := (p - 1) * cfg.item_per_page
      let right := p * cfg.item_per_page
      let items := (intRange left right).filterMap
        (fun i => if 0 ≤ i then matched[i.toNat]? else none)
      let has_prev := decide (0 < left) && decide (left < matched_count)
      let has_next := decide (0 < right) && decide (right < matched_count)
      ⟨items,
       some ⟨has_prev, has_next, p,
         if has_prev then some (command_base ++ " " ++ toString (p - 1)) else none,
         if has_next then some (command_base ++ " " ++ toString (p + 1)) else none⟩,
       summary⟩

/-- Outcome oracle for the two fallible effects inside the `try` block of
entry.py `add_location`: whether the `Location(...)` constructor raises,
and whether `storage.add`'s internal `save()` raises; `some e` carries the
exception's message. -/
structure FailureOracle where
  constructError : Option String
  saveError : Option String
  deriving DecidableEq

/-- Everything entry.py `add_location` produces: the final program state,
the private replies to the invoker, the broadcast chat lines (`server.say`),
the broadcast waypoint render, and the logger output. -/
structure AddOutcome where
  state : State
  replies : List String
  announcements : List String
  broadcast : Option Location
  logs : List String
  deriving DecidableEq

/-- entry.py `add_location`: duplicate names are rejected up front; then
`Location(...)` and `storage.add(location)` run inside `try`. The
construction failure happens before any mutation; the save failure happens
after `__add` has already appended to the in-memory store (and before the
file is written), and `add`'s exception propagates to the `except` clause
which replies with the message and logs. On success the waypoint is
announced and broadcast. -/
def add_location (oracle : FailureOracle) (s : State) (name : String)
    (x y z : ℚ) (dim : ℤ) (desc : Option String) : AddOutcome :=
  if s.store.contains name then
    ⟨s, ["路标§b" ++ name ++ "§r已存在，无法添加"], [], none, []⟩
  else
    match oracle.constructError with
    | some e =>
        ⟨s, ["路标§b" ++ name ++ "§r添加§c失败§r: " ++ e], [], none,
          ["Failed to add location " ++ name]⟩
    | none =>
        let location : Location := ⟨name, desc, dim, ⟨x, y, z⟩⟩
        let r := s.store.addInternal location
        match oracle.saveError with
        | some e =>
            ⟨{ s with store := r.1 },
              ["路标§b" ++ name ++ "§r添加§c失败§r: " ++ e], [], none,
              ["Failed to add location " ++ name]⟩
        | none =>
            ⟨State.save { s with store := r.1 },
              [], ["路标§b" ++ name ++ "§r添加§a成功"], some location, []⟩

/-- One reply line of `show_location_detail`: the three rich lines are kept
structured, the legacy export lines are plain strings. -/
inductive ReplyLine
  | nameLine (name : String)
  | coordLine (pieces : List CoordPiece)
  | descLine (text : String)
  | plain (s : String)
  deriving DecidableEq

/-- Output of entry.py `show_location_detail`: the broadcast render, the
private replies actually sent (in order), and the uncaught exception, if
any, that aborts the handler after the replies already sent. -/
structure DetailOutput where
  broadcast : Option Location
  replies : List ReplyLine
  error : Option String
  deriving DecidableEq

/-- entry.py `show_location_detail`: unknown names get a "not found" reply.
Otherwise broadcast, then reply name / coordinate (precision 4) /
description ("无" when absent), then the two VoxelMap lines with
half-even-rounded integer coordinates (raw dim int, then resolved key),
then the xaero line. Building the xaero line evaluates `loc.name[0]`
(IndexError on an empty name) and `get_dim_key(loc.dim).replace(...)`
(AttributeError when the key is still an int); either exception aborts the
handler after the first five replies. -/
def show_location_detail (cfg : Config) (st : LocationStorage) (name : String) :
    DetailOutput :=
  match st.get name with
  | none => ⟨none, [.plain ("未找到路标§b" ++ name ++ "§r")], none⟩
  | some loc =>
      let x := pyRoundInt loc.pos.x
      let y := pyRoundInt loc.pos.y
      let z := pyRoundInt loc.pos.z
      let base : List ReplyLine :=
        [.nameLine loc.name,
         .coordLine (get_coordinate_text cfg loc.pos loc.dim 4),
         .descLine (loc.desc.getD "无"),
         .plain ("VoxelMap路标: [name:" ++ loc.name ++ ", x:" ++ toString x ++
           ", y:" ++ toString y ++ ", z:" ++ toString z ++
           ", dim:" ++ toString loc.dim ++ "]"),
         .plain ("VoxelMap路标(1.16+): [name:" ++ loc.name ++ ", x:" ++ toString x ++
           ", y:" ++ toString y ++ ", z:" ++ toString z ++
           ", dim:" ++ dimValueStr (get_dim_key (.int loc.dim)) ++ "]")]
      if loc.name = "" then
        ⟨some loc, base, some "IndexError: string index out of range"⟩
      else
        match get_dim_key (.int loc.dim) with
        | .int _ =>
            ⟨some loc, base, some "AttributeError: int object has no attribute replace"⟩
        | .str k =>
            ⟨some loc,
             base ++
               [.plain ("<" ++ PLUGIN_NAME ++ "> xaero-waypoint:" ++ loc.name ++ ":" ++
                 String.singleton loc.name.front ++ ":" ++ toString x ++ ":" ++
                 toString y ++ ":" ++ toString z ++ ":6:false:0:Internal-" ++
                 k.replace "minecraft:" "" ++ "-waypoints")],
             none⟩

/-- The store the plugin starts from: freshly constructed, empty list and
empty name dictionary, over whatever file is on disk. -/
def initialState (disk : Option DiskFile) : State := ⟨⟨[], []⟩, disk⟩

/-- A store-mutating operation, for stating the store invariant over
operation sequences. -/
inductive Op
  | add (loc : Location)
  | remove (name : String)
  | load (file_path : String)
  deriving DecidableEq

/-- Whether an operation is a `load`. -/
def Op.isLoad : Op → Bool
  | .load _ => true
  | _ => false

/-- Run one operation. A `remove` whose internal `list.remove` raises
leaves the state untouched (the exception fires before any mutation and
propagates out of the handler). -/
def State.applyOp (s : State) : Op → State
  | .add loc => (s.add loc).1
  | .remove n =>
      match s.remove n with
      | .ok r => r.1
      | .error _ => s
  | .load p => (s.load p).1

/-- Run a sequence of operations. -/
def State.applyOps (s : State) (ops : List Op) : State :=
  ops.foldl State.applyOp s

/-- The claimed store consistency invariant: the location names are
pairwise distinct, and the name index answers exactly the names occurring
in the list, each with its list entry. -/
def Inv (st : LocationStorage) : Prop :=
  (st.locations.map Location.name).Nodup ∧
    ∀ n loc, st.get n = some loc ↔ loc ∈ st.locations ∧ loc.name = n

/-- Internal equational invariant: the name dictionary is exactly the list
of `(name, location)` pairs of the location list, whose names are pairwise
distinct. -/
def InvE (st : LocationStorage) : Prop :=
  st.name_map = st.locations.map (fun l => (l.name, l)) ∧
    (st.locations.map Location.name).Nodup

/-- Spec-side formalization for the load collision rule: keep the first
record of each name, in file order, skipping names already `seen`. -/
def specFirstOccurrences (seen : List String) : List Location → List Location
  | [] => []
  | l :: rest =>
      if seen.contains l.name then specFirstOccurrences seen rest
      else l :: specFirstOccurrences (seen ++ [l.name]) rest


/-! ### Lemmas about the name dictionary and the store invariant -/

theorem dictGet_map_pair (locs : List Location) (n : String) :
    dictGet (locs.map (fun l => (l.name, l))) n = locs.find? (fun l => l.name == n) := by
  simp only [dictGet, List.find?_map, Option.map_map]
  have hc : ((fun e : String × Location => e.1 == n) ∘ fun l => (l.name, l)) =
      fun l : Location => l.name == n := rfl
  rw [hc]
  cases locs.find? (fun l => l.name == n) <;> rfl

theorem get_eq_find {st : LocationStorage} (h : InvE st) (n : String) :
    st.get n = st.locations.find? (fun l => l.name == n) := by
  rw [LocationStorage.get, h.1, dictGet_map_pair]

theorem removeFirst?_append {a : Location} (bs : List Location) :
    ∀ as : List Location, (∀ x ∈ as, x ≠ a) →
      removeFirst? (as ++ a :: bs) a = some (as ++ bs)
  | [], _ => by simp [removeFirst?]
  | x :: as, h => by
      have hx : x ≠ a := h x (by simp)
      have hrec := removeFirst?_append bs as (fun y hy => h y (by simp [hy]))
      simp only [List.cons_append, removeFirst?, if_neg hx, List.append_eq, hrec]
      rfl

theorem addInternal_of_contains {st : LocationStorage} {loc : Location}
    (hg : (st.get loc.name).isSome = true) : st.addInternal loc = (st, false) := by
  rcases Option.isSome_iff_exists.mp hg with ⟨a, ha⟩
  rw [LocationStorage.addInternal, ha]

theorem addInternal_of_fresh {st : LocationStorage} {loc : Location}
    (hg : st.get loc.name = none) :
    st.addInternal loc
      = (⟨st.locations ++ [loc], dictInsert st.name_map loc.name loc⟩, true) := by
  rw [LocationStorage.addInternal, hg]

theorem addInternal_invE {st : LocationStorage} (h : InvE st) (loc : Location) :
    InvE (st.addInternal loc).1 := by
  cases hg : st.get loc.name with
  | some l => rw [addInternal_of_contains (by rw [hg]; rfl)]; exact h
  | none =>
      rw [addInternal_of_fresh hg]
      have hg' := hg
      rw [get_eq_find h, List.find?_eq_none] at hg'
      have hnm : loc.name ∉ st.locations.map Location.name := by
        intro hmem
        rcases List.mem_map.mp hmem with ⟨x, hx, hxn⟩
        exact hg' x hx (by simp [hxn])
      constructor
      · show dictInsert st.name_map loc.name loc = _
        have hfind : st.name_map.find? (fun e => e.1 == loc.name) = none := by
          cases hfx : st.name_map.find? (fun e => e.1 == loc.name) with
          | none => rfl
          | some a =>
              have hd : dictGet st.name_map loc.name = none := hg
              rw [dictGet, hfx] at hd
              exact absurd hd (by simp)
        rw [dictInsert, if_neg (by simp [hfind]), h.1]
        simp
      · show ((st.locations ++ [loc]).map Location.name).Nodup
        rw [List.map_append]
        refine h.2.append (by simp) ?_
        intro a ha hb
        rw [List.map_singleton, List.mem_singleton] at hb
        exact hnm (hb ▸ ha)

theorem removeInternal_invE {st : LocationStorage} (h : InvE st) (n : String) :
    ∃ st' r, st.removeInternal n = .ok (st', r) ∧ InvE st' := by
  cases hg : st.get n with
  | none =>
      refine ⟨st, none, ?_, h⟩
      rw [LocationStorage.removeInternal, hg]
  | some loc =>
      have hgf := hg
      rw [get_eq_find h] at hgf
      rcases List.find?_eq_some.mp hgf with ⟨hp, as, bs, hsplit, hfront⟩
      have hln : loc.name = n := by simpa using hp
      have hfront' : ∀ x ∈ as, x.name ≠ n := by
        intro x hx
        simpa using hfront x hx
      have hrm : removeFirst? st.locations loc = some (as ++ bs) := by
        rw [hsplit]
        exact removeFirst?_append bs as
          (fun x hx hxa => hfront' x hx (by rw [hxa, hln]))
      refine ⟨LocationStorage.mk (as ++ bs) (dictPop st.name_map loc.name),
        some loc, ?_, ?_, ?_⟩
      · rw [LocationStorage.removeInternal, hg]
        simp only [hrm]
      · show dictPop st.name_map loc.name = (as ++ bs).map (fun l => (l.name, l))
        have hnodup := h.2
        rw [hsplit, List.map_append] at hnodup
        have hbs : ∀ x ∈ bs, x.name ≠ loc.name := by
          intro x hx hxe
          have h2 := (List.nodup_append.mp hnodup).2.1
          rw [List.map_cons, List.nodup_cons] at h2
          exact h2.1 (hxe ▸ List.mem_map_of_mem Location.name hx)
        rw [dictPop, h.1, hsplit]
        simp only [List.map_append, List.map_cons, List.filter_append, List.filter_cons]
        have hloc : ((loc.name, loc).1 != loc.name) = false := by simp
        rw [hloc]
        congr 1
        · exact List.filter_eq_self.mpr (fun e he => by
            rcases List.mem_map.mp he with ⟨x, hx, rfl⟩
            simpa [hln] using hfront' x hx)
        · show List.filter _ (bs.map fun l => (l.name, l)) = _
          exact List.filter_eq_self.mpr (fun e he => by
            rcases List.mem_map.mp he with ⟨x, hx, rfl⟩
            simpa using hbs x hx)
      · show ((as ++ bs).map Location.name).Nodup
        have hsub : ((as ++ bs).map Location.name).Sublist
            (st.locations.map Location.name) := by
          rw [hsplit]
          exact ((List.append_sublist_append_left as).mpr
            (List.sublist_cons_self loc bs)).map Location.name
        exact h.2.sublist hsub

theorem foldl_addInternal_invE {st : LocationStorage} (h : InvE st)
    (locs : List Location) :
    InvE (locs.foldl (fun s l => (s.addInternal l).1) st) := by
  induction locs generalizing st with
  | nil => exact h
  | cons l rest ih => exact ih (addInternal_invE h l)

theorem invE_inv {st : LocationStorage} (h : InvE st) : Inv st := by
  refine ⟨h.2, fun n loc => ?_⟩
  rw [get_eq_find h]
  constructor
  · intro hf
    exact ⟨List.mem_of_find?_eq_some hf, by simpa using List.find?_some hf⟩
  · rintro ⟨hm, rfl⟩
    cases hf : st.locations.find? (fun l => l.name == loc.name) with
    | none =>
        rw [List.find?_eq_none] at hf
        exact ((hf loc hm) (by simp)).elim
    | some a =>
        have ha := List.mem_of_find?_eq_some hf
        have hpa : a.name = loc.name := by simpa using List.find?_some hf
        rw [List.inj_on_of_nodup_map h.2 ha hm hpa]

theorem contains_eq_keys_contains {st : LocationStorage} (h : InvE st) (n : String) :
    (st.get n).isSome = (st.locations.map Location.name).contains n := by
  rw [get_eq_find h]
  cases hf : st.locations.find? (fun l => l.name == n) with
  | some a =>
      have hm := List.mem_of_find?_eq_some hf
      have hpa : a.name = n := by simpa using List.find?_some hf
      exact (List.contains_iff_exists_mem_beq.mpr
        ⟨n, hpa ▸ List.mem_map_of_mem Location.name hm, by simp⟩).symm
  | none =>
      rw [List.find?_eq_none] at hf
      refine (Bool.eq_false_iff.mpr ?_).symm
      intro hc
      rcases List.contains_iff_exists_mem_beq.mp hc with ⟨m, hm, hbeq⟩
      rcases List.mem_map.mp hm with ⟨x, hx, rfl⟩
      have hxn : x.name = n := (eq_of_beq hbeq).symm
      exact (hf x hx) (by simp [hxn])

theorem foldl_addInternal_locations {st : LocationStorage} (h : InvE st) :
    ∀ locs : List Location,
      (locs.foldl (fun s l => (s.addInternal l).1) st).locations
        = st.locations ++ specFirstOccurrences (st.locations.map Location.name) locs := by
  intro locs
  induction locs generalizing st with
  | nil => simp [specFirstOccurrences]
  | cons l rest ih =>
      rw [List.foldl_cons, specFirstOccurrences]
      cases hc : (st.locations.map Location.name).contains l.name with
      | true =>
          have hget : (st.get l.name).isSome = true := by
            rw [contains_eq_keys_contains h, hc]
          rw [if_pos rfl, addInternal_of_contains hget]
          exact ih h
      | false =>
          have hget : st.get l.name = none := by
            have hck := contains_eq_keys_contains h l.name
            rw [hc] at hck
            exact Option.not_isSome_iff_eq_none.mp (by simp [hck])
          have hinv' := addInternal_invE h l
          rw [addInternal_of_fresh hget] at hinv' ⊢
          rw [if_neg (by simp), ih hinv']
          simp [List.append_assoc]

theorem specFirstOccurrences_nodup (locs : List Location) :
    ∀ seen : List String,
      (((specFirstOccurrences seen locs).map Location.name).Nodup ∧
        ∀ n ∈ (specFirstOccurrences seen locs).map Location.name, ¬ seen.contains n) := by
  induction locs with
  | nil => intro seen; simp [specFirstOccurrences]
  | cons l rest ih =>
      intro seen
      rw [specFirstOccurrences]
      cases hc : seen.contains l.name with
      | true => simpa using ih seen
      | false =>
          rw [if_neg (by simp)]
          rcases ih (seen ++ [l.name]) with ⟨hnd, hni⟩
          refine ⟨?_, ?_⟩
          · rw [List.map_cons, List.nodup_cons]
            refine ⟨fun hmem => hni l.name hmem ?_, hnd⟩
            simp
          · intro n hn hseen
            rw [List.map_cons, List.mem_cons] at hn
            cases hn with
            | inl he => rw [he] at hseen; rw [hseen] at hc; cases hc
            | inr hmem =>
                refine hni n hmem ?_
                rcases List.contains_iff_exists_mem_beq.mp hseen with ⟨m, hm, hbeq⟩
                exact List.contains_iff_exists_mem_beq.mpr ⟨m, by simp [hm], hbeq⟩

/-! ### Substring search agrees with contiguous-sublist containment -/

theorem subSearch_iff (sub : List Char) (l : List Char) :
    subSearch sub l = true ↔ sub <:+: l := by
  induction l with
  | nil =>
      simp only [subSearch, List.isEmpty_iff, List.infix_nil]
  | cons c t ih =>
      rw [subSearch, Bool.or_eq_true, ih, List.infix_cons_iff, List.isPrefixOf_iff_prefix]

theorem strFindHit_iff (s kw : String) :
    strFindHit s kw = true ↔ kw.toList <:+: s.toList := subSearch_iff _ _

/-! ### The paged slice of the match list -/

theorem filterMap_range_getElem (l : List Location) (n : ℕ) :
    (List.range n).filterMap (fun k => l[k]?) = l.take n := by
  induction n with
  | zero => simp
  | succ n ih =>
      rw [List.range_succ, List.filterMap_append, ih, List.take_succ]
      cases h : l[n]? <;> simp [h]

theorem pageItems_eq (matched : List Location) (a b : ℤ) (ha : 0 ≤ a) :
    (intRange a b).filterMap (fun i => if 0 ≤ i then matched[i.toNat]? else none)
      = (matched.drop a.toNat).take (b - a).toNat := by
  rw [intRange, List.filterMap_map]
  have hcong : ∀ k ∈ List.range (b - a).toNat,
      ((fun i => if 0 ≤ i then matched[i.toNat]? else none) ∘ fun k : ℕ => a + k) k
        = (matched.drop a.toNat)[k]? := by
    intro k _
    have hge : (0 : ℤ) ≤ a + k := by positivity
    simp only [Function.comp_apply, if_pos hge]
    rw [Int.toNat_add_nat ha, List.getElem?_drop]
  rw [List.filterMap_congr hcong, filterMap_range_getElem]

/-! ### Concrete fixtures used by witnesses and counterexamples -/

/-- A sample waypoint. -/
def locHome : Location := ⟨"home", none, 0, ⟨1, 2, 3⟩⟩

/-- A second waypoint with the same name (different payload). -/
def locHome2 : Location := ⟨"home", some "second", 1, ⟨4, 5, 6⟩⟩

/-- A consistent state holding `locHome`, with the file matching memory. -/
def sampleState : State :=
  ⟨⟨[locHome], [("home", locHome)]⟩, some (DiskFile.good [locHome])⟩

/-- The default configuration (hint on, ten items per page). -/
def cfg10 : Config := ⟨true, 10⟩

/-! ### C1 -/

/-- C1: adding a location whose name is already present returns failure and
leaves the in-memory store (ordered list and name index) and the backing
file byte-for-byte unchanged, for every state whose file holds the
serialization of the current list; the second conjunct shows that this
file/memory agreement holds after every `add`, hence throughout any
sequence of add operations. -/
theorem c1_add_duplicate_noop :
    (∀ (s : State) (loc : Location),
      s.store.contains loc.name = true →
      s.disk = some (DiskFile.good s.store.locations) →
      (s.add loc).2 = false ∧ (s.add loc).1 = s) ∧
    ∀ (s : State) (loc : Location),
      ((s.add loc).1).disk = some (DiskFile.good ((s.add loc).1).store.locations) := by
  constructor
  · intro s loc hc hd
    have hstep : s.store.addInternal loc = (s.store, false) :=
      addInternal_of_contains hc
    constructor
    · show (s.store.addInternal loc).2 = false
      rw [hstep]
    · show State.save { s with store := (s.store.addInternal loc).1 } = s
      rw [hstep]
      show State.save s = s
      cases s with
      | mk store disk =>
          show State.mk store (some (DiskFile.good store.locations)) = State.mk store disk
          rw [show disk = some (DiskFile.good store.locations) from hd]
  · intro s loc
    rfl

/-- Witness for C1: a concrete duplicate add is rejected without change. -/
theorem c1_add_duplicate_noop_witness :
    (sampleState.add locHome2).2 = false ∧ (sampleState.add locHome2).1 = sampleState :=
  c1_add_duplicate_noop.1 sampleState locHome2 (by decide) (by decide)

/-! ### C3 -/

/-- C3: `load` over a missing backing file yields an empty store, creates
the valid empty-array file, and logs nothing; `load` over a file whose
read/parse raises logs the two error lines and likewise yields an empty
store with the file rewritten to the empty array. Stated for a store whose
name index is empty (the plugin always loads into a freshly constructed
store); the prior location list is arbitrary since `load` clears it. -/
theorem c3_load_self_heal (locs0 : List Location) (path e data : String) :
    ((State.mk ⟨locs0, []⟩ none).load path
        = (State.mk ⟨[], []⟩ (some (DiskFile.good [])), [])) ∧
    ((State.mk ⟨locs0, []⟩ (some (DiskFile.bad e data))).load path
        = (State.mk ⟨[], []⟩ (some (DiskFile.good [])),
            ["Fail to load " ++ path ++ ": " ++ e, "Unknown data: " ++ data])) :=
  ⟨rfl, rfl⟩

/-! ### C8 -/

/-- C8: replaying a parsed file goes through the same collision rule as
`add`: the loaded list is exactly the first occurrence of each name in
file order (later duplicates silently dropped, nothing logged), so the
loaded store holds at most one waypoint per name. -/
theorem c8_load_collision_rule (locs : List Location) (path : String) :
    (((State.mk ⟨[], []⟩ (some (DiskFile.good locs))).load path).1.store.locations
        = specFirstOccurrences [] locs) ∧
    ((((State.mk ⟨[], []⟩ (some (DiskFile.good locs))).load path).1.store.locations.map
        Location.name).Nodup) ∧
    ((State.mk ⟨[], []⟩ (some (DiskFile.good locs))).load path).2 = [] := by
  have hE : InvE (⟨[], []⟩ : LocationStorage) := ⟨rfl, List.nodup_nil⟩
  have hloc := foldl_addInternal_locations hE locs
  simp only [List.map_nil, List.nil_append] at hloc
  refine ⟨?_, ?_, rfl⟩
  · show (locs.foldl (fun (st : LocationStorage) (l : Location) => (st.addInternal l).1)
        (⟨[], []⟩ : LocationStorage)).locations = _
    exact hloc
  · show ((locs.foldl (fun (st : LocationStorage) (l : Location) => (st.addInternal l).1)
        (⟨[], []⟩ : LocationStorage)).locations.map Location.name).Nodup
    rw [hloc]
    exact (specFirstOccurrences_nodup locs []).1

/-! ### C10 -/

theorem applyOp_add_store (s : State) (loc : Location) :
    (s.applyOp (.add loc)).store = (s.store.addInternal loc).1 := rfl

theorem applyOp_invE {s : State} (h : InvE s.store) (op : Op)
    (hop : op.isLoad = false) : InvE (s.applyOp op).store := by
  cases op with
  | add loc => exact addInternal_invE h loc
  | remove n =>
      rcases removeInternal_invE h n with ⟨st', r, heq, hinv⟩
      have hs : s.applyOp (.remove n) = State.save { s with store := st' } := by
        show (match s.remove n with
          | .ok r => r.1
          | .error _ => s) = _
        simp only [State.remove, heq]
      rw [hs]
      exact hinv
  | load p => cases hop

theorem load_invE {s : State} (h : s.store.name_map = []) (p : String) :
    InvE ((s.load p).1).store := by
  have h0 : InvE (⟨[], s.store.name_map⟩ : LocationStorage) := by
    rw [h]
    exact ⟨rfl, List.nodup_nil⟩
  cases hd : s.disk with
  | none =>
      have hs : (s.load p).1 = State.save ⟨⟨[], s.store.name_map⟩, s.disk⟩ := by
        simp only [State.load, hd]
      rw [hs]
      exact h0
  | some f =>
      cases f with
      | bad e data =>
          have hs : (s.load p).1 = State.save ⟨⟨[], s.store.name_map⟩, s.disk⟩ := by
            simp only [State.load, hd]
          rw [hs]
          exact h0
      | good locs =>
          have hs : (s.load p).1
              = ⟨locs.foldl (fun st l => (st.addInternal l).1)
                  ⟨[], s.store.name_map⟩, s.disk⟩ := by
            simp only [State.load, hd]
          rw [hs]
          exact foldl_addInternal_invE h0 locs

theorem applyOps_invE {s : State} (h : InvE s.store) (ops : List Op)
    (hops : ∀ op ∈ ops, op.isLoad = false) : InvE (s.applyOps ops).store := by
  induction ops generalizing s with
  | nil => exact h
  | cons op rest ih =>
      exact ih (applyOp_invE h op (hops op (by simp)))
        (fun o ho => hops o (by simp [ho]))

/-- C10 counterexample: starting from the fresh store, `add locHome`
followed by `load` leaves the name index still answering "home" (with the
very waypoint) while the location list is empty — `load` clears the list
but not the index — so the claimed invariant fails for this add/load
sequence. -/
theorem c10_counterexample :
    ¬ Inv ((initialState none).applyOps
      [Op.add locHome, Op.load "locations.json"]).store := by
  intro hInv
  have hg : ((initialState none).applyOps
      [Op.add locHome, Op.load "locations.json"]).store.get "home" = some locHome := by
    decide
  have hmem := ((hInv.2 "home" locHome).mp hg).1
  have hloc : ((initialState none).applyOps
      [Op.add locHome, Op.load "locations.json"]).store.locations = [] := by
    decide
  rw [hloc] at hmem
  exact absurd hmem (List.not_mem_nil locHome)

/-- C10 amended: the store invariant (pairwise-distinct names in insertion
order; the name index answering exactly the names in the list) holds after
every sequence of add and remove operations from the fresh store, and
likewise when the sequence begins with the plugin's load-at-startup (the
only load the plugin performs, into a freshly constructed store). A `load`
applied to a store whose name index is populated is excluded: it clears
the location list but not the name index (see the counterexample). -/
theorem c10_store_invariant_amended :
    (∀ (d : Option DiskFile) (ops : List Op),
      (∀ op ∈ ops, op.isLoad = false) →
      Inv ((initialState d).applyOps ops).store) ∧
    (∀ (d : Option DiskFile) (p : String) (ops : List Op),
      (∀ op ∈ ops, op.isLoad = false) →
      Inv ((((initialState d).load p).1).applyOps ops).store) := by
  constructor
  · intro d ops hops
    have h0 : InvE (initialState d).store := ⟨rfl, List.nodup_nil⟩
    exact invE_inv (applyOps_invE h0 ops hops)
  · intro d p ops hops
    exact invE_inv (applyOps_invE (load_invE rfl p) ops hops)

/-- Witness for C10 (amended): a concrete load-then-add-then-remove
sequence keeps the invariant. -/
theorem c10_store_invariant_amended_witness :
    Inv ((((initialState none).load "locations.json").1).applyOps
      [Op.add locHome, Op.add locHome2, Op.remove "home"]).store :=
  c10_store_invariant_amended.2 none "locations.json"
    [Op.add locHome, Op.add locHome2, Op.remove "home"] (by decide)

/-! ### C5 -/

/-- The spec-side waypoint "base1" of the search example. -/
def locBase1 : Location := ⟨"base1", some "near the swamp", 0, ⟨0, 0, 0⟩⟩

/-- A store holding only `locBase1`. -/
def stBase1 : LocationStorage := ⟨[locBase1], [("base1", locBase1)]⟩

/-- C5: a search returns exactly the stored waypoints for which the keyword
is a case-sensitive contiguous substring of the name or of the present
description; concretely, "base1" with description "near the swamp" is
found by "base" and "swamp" but not by "desert". -/
theorem c5_search_semantics :
    (∀ (cfg : Config) (st : LocationStorage) (kw : String) (loc : Location),
      loc ∈ (list_locations cfg st (some kw) none).items ↔
        loc ∈ st.locations ∧
          (kw.toList <:+: loc.name.toList ∨
            ∃ d, loc.desc = some d ∧ kw.toList <:+: d.toList)) ∧
    ((list_locations cfg10 stBase1 (some "base") none).items = [locBase1] ∧
     (list_locations cfg10 stBase1 (some "swamp") none).items = [locBase1] ∧
     (list_locations cfg10 stBase1 (some "desert") none).items = []) := by
  constructor
  · intro cfg st kw loc
    show loc ∈ st.get_locations.filter (matchesKeyword (some kw)) ↔ _
    rw [List.mem_filter]
    apply and_congr_right
    intro _
    show (strFindHit loc.name kw ||
        (match loc.desc with
         | some d => strFindHit d kw
         | none => false)) = true ↔ _
    cases hdesc : loc.desc with
    | none =>
        simp only [Bool.or_false, strFindHit_iff]
        constructor
        · exact Or.inl
        · rintro (h | ⟨d, hd, _⟩)
          · exact h
          · cases hd
    | some d =>
        simp only [Bool.or_eq_true, strFindHit_iff]
        constructor
        · rintro (h | h)
          · exact Or.inl h
          · exact Or.inr ⟨d, rfl, h⟩
        · rintro (h | ⟨d', hd', h⟩)
          · exact Or.inl h
          · cases hd'
            exact Or.inr h
  · exact ⟨by decide, by decide, by decide⟩

/-! ### C4 -/

/-- Twenty-five distinct waypoints for the pagination example. -/
def locs25 : List Location :=
  (List.range 25).map (fun k => ⟨"wp" ++ toString k, none, 0, ⟨(k : ℚ), 0, 0⟩⟩)

/-- The store holding `locs25`. -/
def st25 : LocationStorage := ⟨locs25, locs25.map (fun l => (l.name, l))⟩

/-- C4 counterexample: with 25 matches and page size 10, the claimed
"previous is enabled iff an earlier page has an in-range start index"
fails on page 4: the earlier page 3 starts at index 20, in range of the 25
matches, yet the rendered "<-" control is disabled (the code tests the
current page's start index 30 against the match count). -/
theorem c4_counterexample :
    ((list_locations cfg10 st25 none (some 4)).controls.map PageControls.has_prev
        = some false) ∧
    (∃ q : ℤ, 1 ≤ q ∧ q < 4 ∧ 0 ≤ (q - 1) * cfg10.item_per_page ∧
      (q - 1) * cfg10.item_per_page
        < ((st25.get_locations.filter (matchesKeyword none)).length : ℤ)) :=
  ⟨by decide, ⟨3, by decide, by decide, by decide, by decide⟩⟩

/-- C4 amended: for page `p ≥ 1` and page size `n ≥ 1`, the paged listing
renders exactly the matches with index in `[(p-1)*n, p*n)` clipped to the
match list; "->" is enabled iff a later page has an in-range start index
(as claimed), but "<-" is enabled iff an earlier page exists AND the
current page's start index is in range (not the claimed "some earlier page
start is in range" — see the counterexample); the trailing summary with
the total matched count is always appended. The concrete 25-match,
page-size-10 examples of the claim all hold. -/
theorem c4_pagination_amended :
    (∀ (cfg : Config) (st : LocationStorage) (kw : Option String) (p : ℤ),
      1 ≤ p → 1 ≤ cfg.item_per_page →
      ((list_locations cfg st kw (some p)).items
          = ((st.get_locations.filter (matchesKeyword kw)).drop
              ((p - 1) * cfg.item_per_page).toNat).take cfg.item_per_page.toNat) ∧
      (∃ ctl : PageControls,
        (list_locations cfg st kw (some p)).controls = some ctl ∧
        (ctl.has_prev = true ↔ 1 < p ∧
          (p - 1) * cfg.item_per_page
            < ((st.get_locations.filter (matchesKeyword kw)).length : ℤ)) ∧
        (ctl.has_next = true ↔ ∃ q : ℤ, p < q ∧ 0 ≤ (q - 1) * cfg.item_per_page ∧
          (q - 1) * cfg.item_per_page
            < ((st.get_locations.filter (matchesKeyword kw)).length : ℤ))) ∧
      ((list_locations cfg st kw (some p)).summary
          = match kw with
            | none => "共有§6" ++
                toString (st.get_locations.filter (matchesKeyword kw)).length ++
                  "§r个路标"
            | some _ => "共找到§6" ++
                toString (st.get_locations.filter (matchesKeyword kw)).length ++
                  "§r个路标")) ∧
    ((list_locations cfg10 st25 none (some 1)).items = locs25.take 10 ∧
     (list_locations cfg10 st25 none (some 1)).controls.map PageControls.has_prev
        = some false ∧
     (list_locations cfg10 st25 none (some 1)).controls.map PageControls.has_next
        = some true ∧
     (list_locations cfg10 st25 none (some 3)).items = locs25.drop 20 ∧
     (list_locations cfg10 st25 none (some 3)).controls.map PageControls.has_prev
        = some true ∧
     (list_locations cfg10 st25 none (some 3)).controls.map PageControls.has_next
        = some false ∧
     (list_locations cfg10 st25 none (some 4)).items = [] ∧
     (list_locations cfg10 st25 none (some 4)).controls.map PageControls.has_next
        = some false) := by
  constructor
  · intro cfg st kw p hp hn
    have hleft : (0 : ℤ) ≤ (p - 1) * cfg.item_per_page :=
      mul_nonneg (by linarith) (by linarith)
    refine ⟨?_, ?_, ?_⟩
    · show (intRange ((p - 1) * cfg.item_per_page) (p * cfg.item_per_page)).filterMap
          (fun i => if 0 ≤ i then
            (st.get_locations.filter (matchesKeyword kw))[i.toNat]? else none)
          = _
      rw [pageItems_eq _ _ _ hleft]
      have hdiff : p * cfg.item_per_page - (p - 1) * cfg.item_per_page
          = cfg.item_per_page := by ring
      rw [hdiff]
    · refine ⟨_, rfl, ?_, ?_⟩
      · show (decide (0 < (p - 1) * cfg.item_per_page) &&
            decide ((p - 1) * cfg.item_per_page
              < ((st.get_locations.filter (matchesKeyword kw)).length : ℤ))) = true ↔ _
        rw [Bool.and_eq_true, decide_eq_true_eq, decide_eq_true_eq]
        constructor
        · rintro ⟨h0, hm⟩
          refine ⟨?_, hm⟩
          by_contra hc
          push_neg at hc
          have h1 : p - 1 ≤ 0 := by linarith
          nlinarith
        · rintro ⟨h1, hm⟩
          refine ⟨?_, hm⟩
          nlinarith
      · show (decide (0 < p * cfg.item_per_page) &&
            decide (p * cfg.item_per_page
              < ((st.get_locations.filter (matchesKeyword kw)).length : ℤ))) = true ↔ _
        rw [Bool.and_eq_true, decide_eq_true_eq, decide_eq_true_eq]
        constructor
        · rintro ⟨h0, hm⟩
          have he : (p + 1 - 1) * cfg.item_per_page = p * cfg.item_per_page := by ring
          refine ⟨p + 1, by linarith, ?_, ?_⟩
          · rw [he]; linarith
          · rw [he]; exact hm
        · rintro ⟨q, hq, h0, hm⟩
          have hle : p * cfg.item_per_page ≤ (q - 1) * cfg.item_per_page :=
            mul_le_mul_of_nonneg_right (by linarith) (by linarith)
          exact ⟨by nlinarith, lt_of_le_of_lt hle hm⟩
    · cases kw <;> rfl
  · exact ⟨by decide, by decide, by decide, by decide, by decide, by decide,
      by decide, by decide⟩

/-- Witness for C4 (amended), instantiated at the 25-item store, page 2. -/
theorem c4_pagination_amended_witness :
    (list_locations cfg10 st25 none (some 2)).items
        = ((st25.get_locations.filter (matchesKeyword none)).drop
            ((2 - 1) * cfg10.item_per_page).toNat).take cfg10.item_per_page.toNat :=
  (c4_pagination_amended.1 cfg10 st25 none 2 (by decide) (by decide)).1

/-! ### C6 -/

/-- C6: `get_dim_key` maps 0, -1 and 1 to the three world keys; every other
integer and every string passes through unchanged; and
`get_dimension_text` on a value whose resolved key is not in the color
table (an unrecognized key) renders a plain gray node with the key itself
(as rendered by `str`) as both label and hover text. -/
theorem c6_dimension_key :
    get_dim_key (.int 0) = .str "minecraft:overworld" ∧
    get_dim_key (.int (-1)) = .str "minecraft:the_nether" ∧
    get_dim_key (.int 1) = .str "minecraft:the_end" ∧
    (∀ i : ℤ, i ≠ 0 → i ≠ -1 → i ≠ 1 → get_dim_key (.int i) = .int i) ∧
    (∀ s : String, get_dim_key (.str s) = .str s) ∧
    (∀ d : DimValue, keyLookup (get_dim_key d) dimension_color = none →
      get_dimension_text d
        = .plain (dimValueStr (get_dim_key d)) RColor.gray
            (dimValueStr (get_dim_key d))) := by
  refine ⟨rfl, rfl, rfl, ?_, ?_, ?_⟩
  · intro i h0 hm1 h1
    match i, h0, hm1, h1 with
    | Int.ofNat 0, h0, _, _ => exact absurd rfl h0
    | Int.ofNat 1, _, _, h1 => exact absurd rfl h1
    | Int.ofNat (n + 2), _, _, _ => rfl
    | Int.negSucc 0, _, hm1, _ => exact absurd rfl hm1
    | Int.negSucc (n + 1), _, _, _ => rfl
  · intro s
    rfl
  · intro d hlook
    rw [get_dimension_text]
    simp only [hlook]

/-- Witness for C6: the pass-through and gray-render parts at the concrete
inputs 7 and "mymod:custom". -/
theorem c6_dimension_key_witness :
    get_dim_key (.int 7) = .int 7 ∧
    get_dimension_text (.str "mymod:custom")
      = .plain (dimValueStr (get_dim_key (.str "mymod:custom"))) RColor.gray
          (dimValueStr (get_dim_key (.str "mymod:custom"))) :=
  ⟨c6_dimension_key.2.2.2.1 7 (by decide) (by decide) (by decide),
   c6_dimension_key.2.2.2.2.2 (.str "mymod:custom") (by decide)⟩

/-! ### C7 -/

/-- C7: every rendered coordinate element shows the value rounded to the
requested precision while hovering the unrounded value, and (when the
teleport hint flag is on) every piece carries the teleport command built
from the resolved dimension key and the three unrounded coordinates;
concretely 12.3456 rounds to 12.3 at the default precision 1 and to
itself at the detail precision 4. -/
theorem c7_coordinate_rounding :
    (∀ (cfg : Config) (coord : Point) (dim : ℤ) (prec : ℕ),
      cfg.teleport_hint_on_coordinate = true →
      get_coordinate_text cfg coord dim prec
        = [CoordPiece.punct "["
             (some ⟨get_dim_key (.int dim), coord.x, coord.y, coord.z⟩),
           CoordPiece.elem (pyRound coord.x prec) coord.x
             (some ⟨get_dim_key (.int dim), coord.x, coord.y, coord.z⟩),
           CoordPiece.punct ", "
             (some ⟨get_dim_key (.int dim), coord.x, coord.y, coord.z⟩),
           CoordPiece.elem (pyRound coord.y prec) coord.y
             (some ⟨get_dim_key (.int dim), coord.x, coord.y, coord.z⟩),
           CoordPiece.punct ", "
             (some ⟨get_dim_key (.int dim), coord.x, coord.y, coord.z⟩),
           CoordPiece.elem (pyRound coord.z prec) coord.z
             (some ⟨get_dim_key (.int dim), coord.x, coord.y, coord.z⟩),
           CoordPiece.punct "]"
             (some ⟨get_dim_key (.int dim), coord.x, coord.y, coord.z⟩)]) ∧
    pyRound (123456 / 10000 : ℚ) 1 = 123 / 10 ∧
    pyRound (123456 / 10000 : ℚ) 4 = 123456 / 10000 := by
  refine ⟨?_, by unfold pyRound pyRoundInt; norm_num,
    by unfold pyRound pyRoundInt; norm_num⟩
  intro cfg coord dim prec hint
  rw [get_coordinate_text]
  simp only [hint, if_true]

/-- Witness for C7 at the configuration with the hint flag on and the
coordinate 12.3456 of the rounding example. -/
theorem c7_coordinate_rounding_witness :
    get_coordinate_text cfg10 ⟨123456 / 10000, 0, 0⟩ 0 1
      = [CoordPiece.punct "["
           (some ⟨get_dim_key (.int 0), 123456 / 10000, 0, 0⟩),
         CoordPiece.elem (pyRound (123456 / 10000) 1) (123456 / 10000)
           (some ⟨get_dim_key (.int 0), 123456 / 10000, 0, 0⟩),
         CoordPiece.punct ", "
           (some ⟨get_dim_key (.int 0), 123456 / 10000, 0, 0⟩),
         CoordPiece.elem (pyRound 0 1) 0
           (some ⟨get_dim_key (.int 0), 123456 / 10000, 0, 0⟩),
         CoordPiece.punct ", "
           (some ⟨get_dim_key (.int 0), 123456 / 10000, 0, 0⟩),
         CoordPiece.elem (pyRound 0 1) 0
           (some ⟨get_dim_key (.int 0), 123456 / 10000, 0, 0⟩),
         CoordPiece.punct "]"
           (some ⟨get_dim_key (.int 0), 123456 / 10000, 0, 0⟩)] :=
  c7_coordinate_rounding.1 cfg10 ⟨123456 / 10000, 0, 0⟩ 0 1 rfl

/-! ### C2 -/

/-- C2 counterexample: an add with a fresh name whose internal `save`
raises is caught, reported with the underlying message, and logged — but
the new waypoint is left in the in-memory store while the file still holds
the old contents: partial state, contradicting the claimed all-or-nothing
behavior of add. -/
theorem c2_counterexample :
    (add_location ⟨none, some "boom"⟩ (initialState (some (DiskFile.good [])))
        "home" 1 2 3 0 none).replies
      = ["路标§bhome§r添加§c失败§r: boom"] ∧
    (add_location ⟨none, some "boom"⟩ (initialState (some (DiskFile.good [])))
        "home" 1 2 3 0 none).logs
      = ["Failed to add location home"] ∧
    (add_location ⟨none, some "boom"⟩ (initialState (some (DiskFile.good [])))
        "home" 1 2 3 0 none).state.store.locations
      = [⟨"home", none, 0, ⟨1, 2, 3⟩⟩] ∧
    (add_location ⟨none, some "boom"⟩ (initialState (some (DiskFile.good [])))
        "home" 1 2 3 0 none).state.disk
      = some (DiskFile.good []) :=
  ⟨rfl, rfl, rfl, rfl⟩

/-- C2 amended: for a fresh name, every failure inside the `try` block is
caught, reported to the invoker with the underlying message, and logged; a
failure in the `Location(...)` constructor leaves the whole state
unchanged, but a failure in `save` leaves the waypoint already appended to
the in-memory store and the name index with the file unwritten (the add is
caught but not atomic); with no failure, memory and disk are both
updated and the success is announced and broadcast. -/
theorem c2_add_failure_amended (s : State) (name : String) (x y z : ℚ)
    (dim : ℤ) (desc : Option String) (e : String)
    (hfresh : s.store.contains name = false) :
    (add_location ⟨some e, none⟩ s name x y z dim desc
        = ⟨s, ["路标§b" ++ name ++ "§r添加§c失败§r: " ++ e], [], none,
            ["Failed to add location " ++ name]⟩) ∧
    (add_location ⟨none, some e⟩ s name x y z dim desc
        = ⟨⟨⟨s.store.locations ++ [⟨name, desc, dim, ⟨x, y, z⟩⟩],
              dictInsert s.store.name_map name ⟨name, desc, dim, ⟨x, y, z⟩⟩⟩, s.disk⟩,
            ["路标§b" ++ name ++ "§r添加§c失败§r: " ++ e], [], none,
            ["Failed to add location " ++ name]⟩) ∧
    (add_location ⟨none, none⟩ s name x y z dim desc
        = ⟨⟨⟨s.store.locations ++ [⟨name, desc, dim, ⟨x, y, z⟩⟩],
              dictInsert s.store.name_map name ⟨name, desc, dim, ⟨x, y, z⟩⟩⟩,
            some (DiskFile.good (s.store.locations ++ [⟨name, desc, dim, ⟨x, y, z⟩⟩]))⟩,
            [], ["路标§b" ++ name ++ "§r添加§a成功"],
            some ⟨name, desc, dim, ⟨x, y, z⟩⟩, []⟩) := by
  have hget : s.store.get name = none := by
    have hs : (dictGet s.store.name_map name).isSome = false := hfresh
    cases hx : dictGet s.store.name_map name with
    | none => exact hx
    | some a => rw [hx] at hs; cases hs
  have hstep : s.store.addInternal ⟨name, desc, dim, ⟨x, y, z⟩⟩
      = (⟨s.store.locations ++ [⟨name, desc, dim, ⟨x, y, z⟩⟩],
          dictInsert s.store.name_map name ⟨name, desc, dim, ⟨x, y, z⟩⟩⟩, true) :=
    addInternal_of_fresh hget
  refine ⟨?_, ?_, ?_⟩
  · simp only [add_location, hfresh, Bool.false_eq_true, if_false]
  · simp only [add_location, hfresh, Bool.false_eq_true, if_false, hstep]
  · simp only [add_location, hfresh, Bool.false_eq_true, if_false, hstep]
    rfl

/-- Witness for C2 (amended): the construction-failure case at concrete
inputs leaves the state unchanged while replying and logging. -/
theorem c2_add_failure_amended_witness :
    add_location ⟨some "err", none⟩ (initialState none) "home" 1 2 3 0 none
      = ⟨initialState none, ["路标§b" ++ "home" ++ "§r添加§c失败§r: " ++ "err"],
          [], none, ["Failed to add location " ++ "home"]⟩ :=
  (c2_add_failure_amended (initialState none) "home" 1 2 3 0 none "err" rfl).1

/-! ### C9 -/

theorem pyRoundInt_one : pyRoundInt 1 = 1 := by unfold pyRoundInt; norm_num

theorem pyRoundInt_two : pyRoundInt 2 = 2 := by unfold pyRoundInt; norm_num

theorem pyRoundInt_three : pyRoundInt 3 = 3 := by unfold pyRoundInt; norm_num

/-- A waypoint stored with a non-canonical dimension; the storage format
accepts any integer `dim`, so such a record loads fine from the file. -/
def locBadDim : Location := ⟨"base", none, 7, ⟨1, 2, 3⟩⟩

/-- A store holding only `locBadDim`. -/
def stBadDim : LocationStorage := ⟨[locBadDim], [("base", locBadDim)]⟩

/-- C9 counterexample: for the stored waypoint with dimension 7 the info
handler raises (`.replace` is called on the int that `get_dim_key` passed
through) after the first five replies, so no reply line contains the
xaero-waypoint export format at all. -/
theorem c9_counterexample :
    ((show_location_detail cfg10 stBadDim "base").replies.all
        (fun r => match r with
          | .plain s => !(strFindHit s "xaero-waypoint")
          | _ => true) = true) ∧
    (show_location_detail cfg10 stBadDim "base").error
      = some "AttributeError: int object has no attribute replace" := by
  have hg : stBadDim.get "base" = some locBadDim := rfl
  have hk : get_dim_key (.int 7) = .int 7 := rfl
  have hdet : show_location_detail cfg10 stBadDim "base"
      = ⟨some locBadDim,
         [.nameLine "base",
          .coordLine (get_coordinate_text cfg10 locBadDim.pos 7 4),
          .descLine "无",
          .plain "VoxelMap路标: [name:base, x:1, y:2, z:3, dim:7]",
          .plain "VoxelMap路标(1.16+): [name:base, x:1, y:2, z:3, dim:7]"],
         some "AttributeError: int object has no attribute replace"⟩ := by
    simp only [show_location_detail, hg]
    rw [if_neg (by decide)]
    simp only [locBadDim, hk, pyRoundInt_one, pyRoundInt_two, pyRoundInt_three]
    rfl
  rw [hdet]
  exact ⟨by decide, rfl⟩

/-- C9 amended: for every stored waypoint with a nonempty name whose
dimension is one of the canonical integers (so its resolved key is a
string), the info command's private reply is exactly the name, coordinate
(precision 4) and description lines followed by the three legacy export
lines: the VoxelMap line with the raw dimension int, the VoxelMap line
with the resolved key, and the xaero line with the `minecraft:`-stripped
key, each built from the name, its first letter, and the three
half-even-rounded integer coordinates; a waypoint with any other integer
dimension raises before the xaero line instead (see the counterexample). -/
theorem c9_info_export_amended (cfg : Config) (st : LocationStorage)
    (name : String) (loc : Location)
    (hget : st.get name = some loc) (hname : loc.name ≠ "")
    (hdim : loc.dim = 0 ∨ loc.dim = -1 ∨ loc.dim = 1) :
    ∃ k : String, get_dim_key (.int loc.dim) = .str k ∧
      show_location_detail cfg st name
        = ⟨some loc,
           [.nameLine loc.name,
            .coordLine (get_coordinate_text cfg loc.pos loc.dim 4),
            .descLine (loc.desc.getD "无"),
            .plain ("VoxelMap路标: [name:" ++ loc.name ++ ", x:" ++
              toString (pyRoundInt loc.pos.x) ++ ", y:" ++
              toString (pyRoundInt loc.pos.y) ++ ", z:" ++
              toString (pyRoundInt loc.pos.z) ++ ", dim:" ++
              toString loc.dim ++ "]"),
            .plain ("VoxelMap路标(1.16+): [name:" ++ loc.name ++ ", x:" ++
              toString (pyRoundInt loc.pos.x) ++ ", y:" ++
              toString (pyRoundInt loc.pos.y) ++ ", z:" ++
              toString (pyRoundInt loc.pos.z) ++ ", dim:" ++ k ++ "]"),
            .plain ("<" ++ PLUGIN_NAME ++ "> xaero-waypoint:" ++ loc.name ++ ":" ++
              String.singleton loc.name.front ++ ":" ++
              toString (pyRoundInt loc.pos.x) ++ ":" ++
              toString (pyRoundInt loc.pos.y) ++ ":" ++
              toString (pyRoundInt loc.pos.z) ++ ":6:false:0:Internal-" ++
              k.replace "minecraft:" "" ++ "-waypoints")],
           none⟩ := by
  rcases hdim with h | h | h
  · refine ⟨"minecraft:overworld", by rw [h]; rfl, ?_⟩
    simp only [show_location_detail, hget]
    rw [if_neg hname, h]
    rfl
  · refine ⟨"minecraft:the_nether", by rw [h]; rfl, ?_⟩
    simp only [show_location_detail, hget]
    rw [if_neg hname, h]
    rfl
  · refine ⟨"minecraft:the_end", by rw [h]; rfl, ?_⟩
    simp only [show_location_detail, hget]
    rw [if_neg hname, h]
    rfl

/-- Witness for C9 (amended) at the stored waypoint `locHome`. -/
theorem c9_info_export_amended_witness :
    ∃ k : String, get_dim_key (.int locHome.dim) = .str k ∧
      show_location_detail cfg10 sampleState.store "home"
        = ⟨some locHome,
           [.nameLine locHome.name,
            .coordLine (get_coordinate_text cfg10 locHome.pos locHome.dim 4),
            .descLine (locHome.desc.getD "无"),
            .plain ("VoxelMap路标: [name:" ++ locHome.name ++ ", x:" ++
              toString (pyRoundInt locHome.pos.x) ++ ", y:" ++
              toString (pyRoundInt locHome.pos.y) ++ ", z:" ++
              toString (pyRoundInt locHome.pos.z) ++ ", dim:" ++
              toString locHome.dim ++ "]"),
            .plain ("VoxelMap路标(1.16+): [name:" ++ locHome.name ++ ", x:" ++
              toString (pyRoundInt locHome.pos.x) ++ ", y:" ++
              toString (pyRoundInt locHome.pos.y) ++ ", z:" ++
              toString (pyRoundInt locHome.pos.z) ++ ", dim:" ++ k ++ "]"),
            .plain ("<" ++ PLUGIN_NAME ++ "> xaero-waypoint:" ++ locHome.name ++ ":" ++
              String.singleton locHome.name.front ++ ":" ++
              toString (pyRoundInt locHome.pos.x) ++ ":" ++
              toString (pyRoundInt locHome.pos.y) ++ ":" ++
              toString (pyRoundInt locHome.pos.z) ++ ":6:false:0:Internal-" ++
              k.replace "minecraft:" "" ++ "-waypoints")],
           none⟩ :=
  c9_info_export_amended cfg10 sampleState.store "home" locHome rfl
    (by decide) (Or.inl rfl)

end LocationMarker
